import Mathlib

/-!
Shallow embedding of the Blackjack round engine from `BJC.py` and its
`Old/v1.1` variant: card model, hand valuation with soft-Ace adjustment,
the multi-deck shoe with reshuffle threshold, the betting / double-down /
dealer-turn handlers, and round resolution.  Randomness (the shuffle) is
modelled as an explicit function parameter.
-/

namespace BJC

/-- The four suits, from the `SUITS` constant. -/
inductive Suit
  | Hearts
  | Diamonds
  | Clubs
  | Spades
deriving DecidableEq, Repr

/-- The thirteen ranks, from the `RANKS` constant. -/
inductive Rank
  | r2
  | r3
  | r4
  | r5
  | r6
  | r7
  | r8
  | r9
  | r10
  | J
  | Q
  | K
  | A
deriving DecidableEq, Repr

/-- A card is a suit/rank pair (`Card(suit, rank)` in the source). -/
abbrev Card := Suit × Rank

/-- Base value of a rank: numeric ranks at face value, J/Q/K as 10, A as 11
(the `Card.__init__` value assignment / the rank branches in
`calculate_hand_value`). -/
def Rank.baseValue : Rank → ℕ
  | .r2 => 2
  | .r3 => 3
  | .r4 => 4
  | .r5 => 5
  | .r6 => 6
  | .r7 => 7
  | .r8 => 8
  | .r9 => 9
  | .r10 => 10
  | .J => 10
  | .Q => 10
  | .K => 10
  | .A => 11

/-- Sum of the base values of a hand (the accumulation loop in
`calculate_hand_value`). -/
def rawSum (h : List Card) : ℕ := (h.map fun c => c.2.baseValue).sum

/-- Number of Aces in a hand (the `aces` counter in `calculate_hand_value`). -/
def aceCount (h : List Card) : ℕ := h.countP fun c => c.2 == Rank.A

/-- The soft-to-hard Ace adjustment loop of `calculate_hand_value`:
`while value > 21 and aces: value -= 10; aces -= 1`. -/
def adjust : ℕ → ℕ → ℕ
  | v, 0 => v
  | v, a + 1 => if 21 < v then adjust (v - 10) a else v

/-- `calculate_hand_value`: base-value sum, then the Ace adjustment loop. -/
def calculate_hand_value (h : List Card) : ℕ := adjust (rawSum h) (aceCount h)

lemma adjust_char (A : ℕ) : ∀ S : ℕ, ∃ k, k ≤ A ∧ adjust S A = S - 10 * k ∧
    (adjust S A ≤ 21 ∨ k = A) ∧ ∀ j, j < k → 21 < S - 10 * j := by
  induction A with
  | zero =>
      intro S
      exact ⟨0, Nat.le_refl 0, by simp [adjust], Or.inr rfl, by intro j hj; omega⟩
  | succ a ih =>
      intro S
      by_cases h : 21 < S
      · obtain ⟨k, hk, he, hstop, hall⟩ := ih (S - 10)
        have hstep : adjust S (a + 1) = adjust (S - 10) a := by
          simp [adjust, h]
        refine ⟨k + 1, Nat.succ_le_succ hk, ?_, ?_, ?_⟩
        · rw [hstep, he]; omega
        · rcases hstop with h1 | h1
          · exact Or.inl (by rw [hstep]; exact h1)
          · exact Or.inr (by omega)
        · intro j hj
          cases j with
          | zero => simpa using h
          | succ j' =>
              have := hall j' (by omega)
              omega
      · have hstep : adjust S (a + 1) = S := by
          simp [adjust, h]
        exact ⟨0, Nat.zero_le _, by rw [hstep]; omega,
          Or.inl (by rw [hstep]; omega), by intro j hj; omega⟩

lemma adjust_ge (m : ℕ) : ∀ a v : ℕ, 10 * a + m ≤ v → m ≤ adjust v a := by
  intro a
  induction a with
  | zero => intro v hv; simpa [adjust] using by omega
  | succ a ih =>
      intro v hv
      by_cases h : 21 < v
      · have : adjust v (a + 1) = adjust (v - 10) a := by simp [adjust, h]
        rw [this]
        exact ih (v - 10) (by omega)
      · have : adjust v (a + 1) = v := by simp [adjust, h]
        rw [this]; omega

lemma rank_base_lower (r : Rank) :
    1 + (if r == Rank.A then 10 else 0) ≤ r.baseValue := by
  cases r <;> decide

lemma length_add_aces_le_rawSum (h : List Card) :
    h.length + 10 * aceCount h ≤ rawSum h := by
  induction h with
  | nil => simp [rawSum, aceCount]
  | cons c t ih =>
      have hc := rank_base_lower c.2
      simp only [rawSum, aceCount, List.map_cons, List.sum_cons,
        List.countP_cons, List.length_cons] at *
      by_cases hA : c.2 == Rank.A
      · simp [hA] at hc ⊢; omega
      · simp [hA] at hc ⊢; omega

lemma length_le_value (h : List Card) : h.length ≤ calculate_hand_value h := by
  have := length_add_aces_le_rawSum h
  exact adjust_ge h.length (aceCount h) (rawSum h) (by omega)

/-- The suits in source order. -/
def suitList : List Suit := [.Hearts, .Diamonds, .Clubs, .Spades]

/-- The ranks in source order. -/
def rankList : List Rank :=
  [.r2, .r3, .r4, .r5, .r6, .r7, .r8, .r9, .r10, .J, .Q, .K, .A]

/-- One 52-card deck: `[Card(suit, rank) for suit in SUITS for rank in RANKS]`. -/
def allCards : List Card := suitList.flatMap fun s => rankList.map fun r => (s, r)

/-- `num_decks` concatenated copies of the 52-card deck (the
`for _ in range(self.num_decks)` comprehension in `build_and_shuffle`). -/
def fullShoeCards : ℕ → List Card
  | 0 => []
  | n + 1 => allCards ++ fullShoeCards n

/-- The multi-deck shoe of `Old/v1.1` (`class Deck`): the remaining cards and
the configured number of decks.  Deal removes from the end (`list.pop`). -/
structure Shoe where
  numDecks : ℕ
  cards : List Card
deriving DecidableEq, Repr

/-- `math.floor(52 * num_decks * RESHUFFLE_THRESHOLD)` with
`RESHUFFLE_THRESHOLD = 0.25`; the product `52·n·0.25 = 13·n` is exact, so the
floor equals natural division of `52·n` by 4. -/
def Shoe.reshufflePoint (s : Shoe) : ℕ := 52 * s.numDecks / 4

/-- `Deck.needs_reshuffle`: `len(self.cards) <= self.reshuffle_point`. -/
def Shoe.needsReshuffle (s : Shoe) : Bool := s.cards.length ≤ s.reshufflePoint

/-- `Deck.build_and_shuffle`, with the random shuffle abstracted as an explicit
function parameter. -/
def Shoe.rebuild (shuffle : List Card → List Card) (s : Shoe) : Shoe :=
  { s with cards := shuffle (fullShoeCards s.numDecks) }

/-- `Deck.deal`: reshuffle first when at or below the threshold, then pop the
last card; `none` models the `if not self.cards` error branch. -/
def Shoe.deal (shuffle : List Card → List Card) (s : Shoe) : Option (Card × Shoe) :=
  let s1 := if s.needsReshuffle then s.rebuild shuffle else s
  match s1.cards.getLast? with
  | none => none
  | some c => some (c, { s1 with cards := s1.cards.dropLast })

/-- One deal step as seen by a caller: the dealt card (if any) and the
resulting shoe. -/
def dealStep (shuffle : List Card → List Card) (s : Shoe) : Option Card × Shoe :=
  match s.deal shuffle with
  | none => (none, s)
  | some (c, s2) => (some c, s2)

/-- `Hand.add_card`: appends the card, skipping `None`. -/
def addCard (h : List Card) : Option Card → List Card
  | none => h
  | some c => h ++ [c]

/-- The game phases of `Old/v1.1` (`st.session_state.game_state`). -/
inductive Phase
  | HOME
  | BETTING
  | PLAYER_TURN
  | DEALER_TURN
  | SHOWDOWN
  | GAME_OVER
deriving DecidableEq, Repr

/-- The per-session mutable state of `Old/v1.1` (`st.session_state`). -/
structure GameState where
  phase : Phase
  playerMoney : ℚ
  dealerMoney : ℚ
  shoe : Shoe
  playerHand : List Card
  dealerHand : List Card
  bet : ℚ
  playerBusted : Bool
  dealerBusted : Bool
  playerBlackjack : Bool
  dealerBlackjack : Bool
  roundOver : Bool
deriving DecidableEq, Repr

/-- The recoverable engine failures reported to the caller. -/
inductive EngineError
  | InvalidBet
  | IllegalAction
deriving DecidableEq, Repr

/-- The opening deal of `Old/v1.1` `display_betting_screen`:
`for _ in range(2): player.add_card(deck.deal()); dealer.add_card(deck.deal())`. -/
def dealOpeningHands (shuffle : List Card → List Card) (s : Shoe) :
    List Card × List Card × Shoe :=
  let r1 := dealStep shuffle s
  let r2 := dealStep shuffle r1.2
  let r3 := dealStep shuffle r2.2
  let r4 := dealStep shuffle r3.2
  (addCard (addCard [] r1.1) r3.1, addCard (addCard [] r2.1) r4.1, r4.2)

/-- The opening deal of the current `BJC.py` betting handler:
`player_hand = [deck.pop(), deck.pop()]; dealer_hand = [deck.pop(), deck.pop()]`
on a plain list deck. -/
def popCard (d : List Card) : Option Card × List Card :=
  match d.getLast? with
  | none => (none, d)
  | some c => (some c, d.dropLast)

/-- Current-variant opening deal: the player receives the first two popped
cards, the dealer the next two. -/
def dealOpeningHandsMain (d : List Card) : List Card × List Card × List Card :=
  let r1 := popCard d
  let r2 := popCard r1.2
  let r3 := popCard r2.2
  let r4 := popCard r3.2
  (addCard (addCard [] r1.1) r2.1, addCard (addCard [] r3.1) r4.1, r4.2)

/-- The `Place Bet & Deal` handler of `Old/v1.1` `display_betting_screen`:
the `0.01 <= bet_amount <= max_bet` validation, the pre-deal reshuffle check,
the opening deal and the blackjack flags. -/
def placeBet (shuffle : List Card → List Card) (amount : ℚ) (g : GameState) :
    GameState × Option EngineError :=
  if 1 / 100 ≤ amount ∧ amount ≤ g.playerMoney then
    let s0 := if g.shoe.needsReshuffle then g.shoe.rebuild shuffle else g.shoe
    let r := dealOpeningHands shuffle s0
    let pv := calculate_hand_value r.1
    let dv := calculate_hand_value r.2.1
    ({ g with
        bet := amount
        playerHand := r.1
        dealerHand := r.2.1
        shoe := r.2.2
        playerBusted := false
        dealerBusted := false
        playerBlackjack := decide (pv = 21)
        dealerBlackjack := decide (dv = 21)
        roundOver := false
        phase := if pv = 21 ∨ dv = 21 then Phase.DEALER_TURN else Phase.PLAYER_TURN },
      none)
  else (g, some EngineError.InvalidBet)

/-- The `Double Down` handler of `Old/v1.1` `display_game_state_ui`: guarded by
`can_double_down` (exactly 2 cards and `player_money >= bet`, with the button
only reachable in `PLAYER_TURN`); deducts the extra stake, doubles the bet,
deals one card and routes to `SHOWDOWN` on a bust, else to `DEALER_TURN`. -/
def doubleDown (shuffle : List Card → List Card) (g : GameState) :
    GameState × Option EngineError :=
  if g.phase = Phase.PLAYER_TURN ∧ g.playerHand.length = 2 ∧ g.bet ≤ g.playerMoney then
    let r := dealStep shuffle g.shoe
    let ph := addCard g.playerHand r.1
    if 21 < calculate_hand_value ph then
      ({ g with
          playerMoney := g.playerMoney - g.bet
          bet := g.bet * 2
          playerHand := ph
          shoe := r.2
          playerBusted := true
          phase := Phase.SHOWDOWN }, none)
    else
      ({ g with
          playerMoney := g.playerMoney - g.bet
          bet := g.bet * 2
          playerHand := ph
          shoe := r.2
          phase := Phase.DEALER_TURN }, none)
  else (g, some EngineError.IllegalAction)

/-- The dealer policy: the loop guard `calculate_hand_value(dealer_hand) < 17`
shared by both variants. -/
def shouldHit (hand : List Card) : Bool := calculate_hand_value hand < 17

/-- The dealer auto-play loop (`while calculate_hand_value(...) < 17: add a
card`), over an abstract supply of dealt cards.  Terminates because a hand's
value is at least its card count. -/
def dealerPlay (supply : ℕ → Card) (hand : List Card) (k : ℕ) : List Card :=
  if calculate_hand_value hand < 17 then
    dealerPlay supply (hand ++ [supply k]) (k + 1)
  else hand
termination_by 17 - hand.length
decreasing_by
  have := length_le_value hand
  simp only [List.length_append, List.length_cons, List.length_nil]
  omega

/-- The possible round outcomes of `process_showdown`. -/
inductive Outcome
  | playerBust
  | dealerBust
  | pushBothBlackjack
  | playerBlackjack
  | dealerBlackjack
  | playerWin
  | dealerWin
  | pushTie
deriving DecidableEq, Repr

/-- `Old/v1.1` `process_showdown`: the outcome branch structure of the source,
returning the outcome together with the `(playerDelta, dealerDelta)` balance
changes. -/
def resolve (pBusted dBusted pBJ dBJ : Bool) (pv dv : ℕ) (bet : ℚ) :
    Outcome × ℚ × ℚ :=
  if pBusted then (.playerBust, (-bet, bet))
  else if dBusted then (.dealerBust, (bet, -bet))
  else if pBJ then
    if dBJ then (.pushBothBlackjack, (0, 0))
    else (.playerBlackjack, (bet * (3 / 2), -(bet * (3 / 2))))
  else if dBJ then (.dealerBlackjack, (-bet, bet))
  else if dv < pv then (.playerWin, (bet, -bet))
  else if pv < dv then (.dealerWin, (-bet, bet))
  else (.pushTie, (0, 0))

/-- The flat first-match priority list stated by the specification:
player bust, dealer bust, both-blackjack push, player-blackjack-only (paying
1.5×bet), dealer-blackjack-only, value comparison, tie push. -/
def resolveSpec (pBusted dBusted pBJ dBJ : Bool) (pv dv : ℕ) (bet : ℚ) :
    Outcome × ℚ × ℚ :=
  if pBusted then (.playerBust, (-bet, bet))
  else if dBusted then (.dealerBust, (bet, -bet))
  else if pBJ ∧ dBJ then (.pushBothBlackjack, (0, 0))
  else if pBJ then (.playerBlackjack, (bet * (3 / 2), -(bet * (3 / 2))))
  else if dBJ then (.dealerBlackjack, (-bet, bet))
  else if dv < pv then (.playerWin, (bet, -bet))
  else if pv < dv then (.dealerWin, (-bet, bet))
  else (.pushTie, (0, 0))

/-- The `result` phase of the current `BJC.py` (no blackjack flags): the
`(playerDelta, dealerDelta)` applied to the balances. -/
def resolveMain (pv dv : ℕ) (bet : ℚ) : ℚ × ℚ :=
  if 21 < pv then (-bet, bet)
  else if 21 < dv then (bet, -bet)
  else if dv < pv then (bet, -bet)
  else if pv < dv then (-bet, bet)
  else (0, 0)

lemma allCards_length : allCards.length = 52 := by decide

lemma fullShoeCards_length (n : ℕ) : (fullShoeCards n).length = 52 * n := by
  induction n with
  | zero => simp [fullShoeCards]
  | succ m ih =>
      simp only [fullShoeCards, List.length_append, ih, allCards_length]
      ring

lemma deal_succeeds (s : Shoe) (shuffle : List Card → List Card)
    (hd : 1 ≤ s.numDecks) (hs : ∀ l : List Card, (shuffle l).length = l.length) :
    ∃ c s2, s.deal shuffle = some (c, s2) ∧ s2.numDecks = s.numDecks ∧
      s2.cards.length + 1 =
        (if s.needsReshuffle then 52 * s.numDecks else s.cards.length) := by
  by_cases hr : s.needsReshuffle
  · have hlen : (s.rebuild shuffle).cards.length = 52 * s.numDecks := by
      simp [Shoe.rebuild, hs, fullShoeCards_length]
    have hne : (s.rebuild shuffle).cards ≠ [] := by
      apply List.ne_nil_of_length_pos
      omega
    obtain ⟨c, hc⟩ := Option.isSome_iff_exists.mp
      (List.getLast?_isSome.mpr hne)
    have hc2 : (shuffle (fullShoeCards s.numDecks)).getLast? = some c := by
      simpa [Shoe.rebuild] using hc
    refine ⟨c, ⟨s.numDecks, (s.rebuild shuffle).cards.dropLast⟩, ?_, rfl, ?_⟩
    · simp [Shoe.deal, hr, hc2, Shoe.rebuild]
    · have hdl : (s.rebuild shuffle).cards.dropLast.length =
          (s.rebuild shuffle).cards.length - 1 := by
        simp [List.length_dropLast]
      simp only [hr, if_true]
      rw [hdl, hlen]
      omega
  · have hlen : 0 < s.cards.length := by
      have : ¬ s.cards.length ≤ s.reshufflePoint := by
        simpa [Shoe.needsReshuffle] using hr
      omega
    have hne : s.cards ≠ [] := List.ne_nil_of_length_pos hlen
    obtain ⟨c, hc⟩ := Option.isSome_iff_exists.mp
      (List.getLast?_isSome.mpr hne)
    have hr2 : s.needsReshuffle = false := by simpa using hr
    refine ⟨c, ⟨s.numDecks, s.cards.dropLast⟩, ?_, rfl, ?_⟩
    · simp [Shoe.deal, hr2, hc]
    · simp [hr2, List.length_dropLast]
      omega

lemma dealStep_succeeds (s : Shoe) (shuffle : List Card → List Card)
    (hd : 1 ≤ s.numDecks) (hs : ∀ l : List Card, (shuffle l).length = l.length) :
    ∃ c s2, dealStep shuffle s = (some c, s2) ∧ s2.numDecks = s.numDecks := by
  obtain ⟨c, s2, hdeal, hnum, _⟩ := deal_succeeds s shuffle hd hs
  exact ⟨c, s2, by simp [dealStep, hdeal], hnum⟩

lemma dealerPlay_eq (supply : ℕ → Card) (hand : List Card) (k : ℕ) :
    dealerPlay supply hand k =
      if calculate_hand_value hand < 17 then
        dealerPlay supply (hand ++ [supply k]) (k + 1)
      else hand := by
  rw [dealerPlay]

lemma dealerPlay_value_ge (supply : ℕ → Card) :
    ∀ (n : ℕ) (hand : List Card) (k : ℕ), 17 ≤ hand.length + n →
      17 ≤ calculate_hand_value (dealerPlay supply hand k) := by
  intro n
  induction n with
  | zero =>
      intro hand k h
      have hv := length_le_value hand
      have hstop : ¬ calculate_hand_value hand < 17 := by omega
      rw [dealerPlay_eq, if_neg hstop]
      omega
  | succ m ih =>
      intro hand k h
      by_cases hv : calculate_hand_value hand < 17
      · rw [dealerPlay_eq, if_pos hv]
        apply ih
        simp only [List.length_append, List.length_cons, List.length_nil]
        omega
      · rw [dealerPlay_eq, if_neg hv]
        omega

lemma dealerPlay_length_le (supply : ℕ → Card) :
    ∀ (n : ℕ) (hand : List Card) (k : ℕ), 17 ≤ hand.length + n →
      (dealerPlay supply hand k).length ≤ max hand.length 17 := by
  intro n
  induction n with
  | zero =>
      intro hand k h
      have hv := length_le_value hand
      have hstop : ¬ calculate_hand_value hand < 17 := by omega
      rw [dealerPlay_eq, if_neg hstop]
      exact le_max_left _ _
  | succ m ih =>
      intro hand k h
      by_cases hv : calculate_hand_value hand < 17
      · have hlen : hand.length < 17 := by
          have := length_le_value hand; omega
        rw [dealerPlay_eq, if_pos hv]
        have := ih (hand ++ [supply k]) (k + 1)
          (by simp only [List.length_append, List.length_cons, List.length_nil]; omega)
        simp only [List.length_append, List.length_cons, List.length_nil] at this
        omega
      · rw [dealerPlay_eq, if_neg hv]
        exact le_max_left _ _

/-- A betting-phase session state with the source's starting balances. -/
def gBetting : GameState :=
  { phase := Phase.BETTING, playerMoney := 500, dealerMoney := 5000000,
    shoe := ⟨4, []⟩, playerHand := [], dealerHand := [], bet := 0,
    playerBusted := false, dealerBusted := false, playerBlackjack := false,
    dealerBlackjack := false, roundOver := false }

/-- A 14-card single-deck shoe content whose next dealt card is the K♠
(14 cards is above the single-deck reshuffle point of 13). -/
def deck14 : List Card :=
  List.replicate 13 (Suit.Hearts, Rank.r2) ++ [(Suit.Spades, Rank.K)]

/-- A player-turn state holding {10♠, 9♥} (value 19) with bet 10 and
balance 100, about to draw the K♠ on a double down (busting at 29). -/
def gDouble : GameState :=
  { phase := Phase.PLAYER_TURN, playerMoney := 100, dealerMoney := 5000000,
    shoe := ⟨1, deck14⟩,
    playerHand := [(Suit.Spades, Rank.r10), (Suit.Hearts, Rank.r9)],
    dealerHand := [(Suit.Diamonds, Rank.r7), (Suit.Clubs, Rank.r8)], bet := 10,
    playerBusted := false, dealerBusted := false, playerBlackjack := false,
    dealerBlackjack := false, roundOver := false }

/-- A 14-card single-deck shoe content whose next dealt card is the 4♣. -/
def deck14b : List Card :=
  List.replicate 13 (Suit.Hearts, Rank.r2) ++ [(Suit.Clubs, Rank.r4)]

/-- Scenario 5 of the specification: {6♦, 5♠}, bet 10, balance 100, the next
card a 4♣ (hand becomes 15, no bust). -/
def gScenario5 : GameState :=
  { phase := Phase.PLAYER_TURN, playerMoney := 100, dealerMoney := 5000000,
    shoe := ⟨1, deck14b⟩,
    playerHand := [(Suit.Diamonds, Rank.r6), (Suit.Spades, Rank.r5)],
    dealerHand := [(Suit.Diamonds, Rank.r7), (Suit.Clubs, Rank.r8)], bet := 10,
    playerBusted := false, dealerBusted := false, playerBlackjack := false,
    dealerBlackjack := false, roundOver := false }

/-- A four-card deck for tracing the current variant's opening deal; cards are
popped from the end, so the deal order is 5♣, 4♦, 3♥, 2♠. -/
def deck4 : List Card :=
  [(Suit.Spades, Rank.r2), (Suit.Hearts, Rank.r3),
   (Suit.Diamonds, Rank.r4), (Suit.Clubs, Rank.r5)]

/-- Claim C1: `process_showdown` settles every completed round by the fixed
priority order (player bust, dealer bust, both-blackjack push, player
blackjack paying 1.5×bet, dealer blackjack, value comparison, tie push) with
the stated balance deltas, and the current variant's `result` phase agrees
with that order once its busts are read off the hand values and the blackjack
flags are absent. -/
theorem resolve_matches_priority_spec :
    ∀ (pB dB pJ dJ : Bool) (pv dv : ℕ) (bet : ℚ),
      resolve pB dB pJ dJ pv dv bet = resolveSpec pB dB pJ dJ pv dv bet ∧
      resolveMain pv dv bet =
        (resolveSpec (decide (21 < pv)) (decide (21 < dv)) false false pv dv bet).2 := by
  intro pB dB pJ dJ pv dv bet
  constructor
  · cases pB <;> cases dB <;> cases pJ <;> cases dJ <;>
      simp [resolve, resolveSpec]
  · by_cases h1 : 21 < pv <;> by_cases h2 : 21 < dv <;>
      simp [resolveMain, resolveSpec, h1, h2] <;> split_ifs <;> simp

/-- Claim C2: `calculate_hand_value` is the base-value sum reduced by 10 for
one Ace at a time while the total exceeds 21 and an Ace counted at 11 remains
(so `k` Aces are demoted, each only once, and each demotion was forced); the
hand {A, A, 9} has value 21, and the empty hand has value 0. -/
theorem hand_value_spec :
    (∀ hand : List Card, ∃ k, k ≤ aceCount hand ∧
        calculate_hand_value hand = rawSum hand - 10 * k ∧
        (calculate_hand_value hand ≤ 21 ∨ k = aceCount hand) ∧
        ∀ j, j < k → 21 < rawSum hand - 10 * j) ∧
    calculate_hand_value
      [(Suit.Spades, Rank.A), (Suit.Hearts, Rank.A), (Suit.Clubs, Rank.r9)] = 21 ∧
    calculate_hand_value ([] : List Card) = 0 := by
  exact ⟨fun hand => adjust_char (aceCount hand) (rawSum hand), by decide, by decide⟩

/-- Claim C3: for any shoe with at least one configured deck and any
length-preserving shuffle, `Deck.deal` always returns a card; when the size is
at or below the reshuffle point the shoe is rebuilt to `deckCount × 52` cards
before the last card is removed, so exactly `deckCount × 52 − 1` remain. -/
theorem deal_never_fails (s : Shoe) (shuffle : List Card → List Card)
    (hd : 1 ≤ s.numDecks) (hs : ∀ l : List Card, (shuffle l).length = l.length) :
    ∃ c s2, s.deal shuffle = some (c, s2) ∧
      (s.cards.length ≤ s.reshufflePoint → s2.cards.length + 1 = 52 * s.numDecks) := by
  obtain ⟨c, s2, h1, _, h3⟩ := deal_succeeds s shuffle hd hs
  refine ⟨c, s2, h1, fun hthr => ?_⟩
  have hr : s.needsReshuffle = true := by
    simpa [Shoe.needsReshuffle] using hthr
  rw [hr] at h3
  simpa using h3

/-- Witness for C3: dealing from an empty single-deck shoe succeeds and
leaves 51 cards. -/
theorem deal_never_fails_witness :
    ∃ c s2, (Shoe.mk 1 []).deal id = some (c, s2) ∧
      ((Shoe.mk 1 []).cards.length ≤ (Shoe.mk 1 []).reshufflePoint →
        s2.cards.length + 1 = 52 * (Shoe.mk 1 []).numDecks) :=
  deal_never_fails ⟨1, []⟩ id (by decide) (fun l => rfl)

/-- Counterexample for C4: the bet 0.005 with balance 500 is rejected with
`InvalidBet` by the source's `0.01 <= bet_amount <= max_bet` validation, yet
the claim's condition `amount ≤ 0 ∨ amount > playerBalance` does not hold. -/
theorem placeBet_small_bet_counterexample :
    (placeBet id (1 / 200) gBetting).2 = some EngineError.InvalidBet ∧
    gBetting.phase = Phase.BETTING ∧
    ¬ ((1 / 200 : ℚ) ≤ 0 ∨ gBetting.playerMoney < 1 / 200) := by
  have hcond : ¬ ((1 : ℚ) / 100 ≤ 1 / 200 ∧ (1 : ℚ) / 200 ≤ gBetting.playerMoney) := by
    intro hc
    have := hc.1
    norm_num at this
  refine ⟨?_, rfl, ?_⟩
  · unfold placeBet
    rw [if_neg hcond]
  · simp only [gBetting, not_or, not_le, not_lt]
    constructor <;> norm_num

/-- Claim C4 as amended: `placeBet` in state Betting fails with `InvalidBet`
exactly when the amount is below the 0.01 minimum bet or exceeds the player
balance, and on such a failure the whole state is unchanged (it remains
Betting, no cards are dealt, both balances keep their values). -/
theorem placeBet_invalid_iff (shuffle : List Card → List Card) (amount : ℚ)
    (g : GameState) (hphase : g.phase = Phase.BETTING) :
    ((placeBet shuffle amount g).2 = some EngineError.InvalidBet ↔
      (amount < 1 / 100 ∨ g.playerMoney < amount)) ∧
    ((placeBet shuffle amount g).2 = some EngineError.InvalidBet →
      (placeBet shuffle amount g).1 = g) := by
  have hsplit : (placeBet shuffle amount g).2 = some EngineError.InvalidBet ↔
      ¬ (1 / 100 ≤ amount ∧ amount ≤ g.playerMoney) := by
    by_cases h : 1 / 100 ≤ amount ∧ amount ≤ g.playerMoney
    · unfold placeBet
      rw [if_pos h]
      exact iff_of_false (by simp) (not_not_intro h)
    · unfold placeBet
      rw [if_neg h]
      exact iff_of_true rfl h
  constructor
  · rw [hsplit, not_and_or, not_le, not_le]
  · intro hfail
    have h : ¬ (1 / 100 ≤ amount ∧ amount ≤ g.playerMoney) := hsplit.mp hfail
    unfold placeBet
    rw [if_neg h]

/-- Witness for the amended C4 at bet 0.005 and balance 500. -/
theorem placeBet_invalid_iff_witness :
    ((placeBet id (1 / 200) gBetting).2 = some EngineError.InvalidBet ↔
      ((1 / 200 : ℚ) < 1 / 100 ∨ gBetting.playerMoney < 1 / 200)) ∧
    ((placeBet id (1 / 200) gBetting).2 = some EngineError.InvalidBet →
      (placeBet id (1 / 200) gBetting).1 = gBetting) :=
  placeBet_invalid_iff id (1 / 200) gBetting rfl

/-- Counterexample for C5: a successful double down on {10♠, 9♥} that draws
the K♠ busts at 29 and the source routes straight to `SHOWDOWN`, not to
`DEALER_TURN` as the claim states for the bust case. -/
theorem doubleDown_bust_counterexample :
    gDouble.playerHand.length = 2 ∧ gDouble.bet ≤ gDouble.playerMoney ∧
    (doubleDown id gDouble).2 = none ∧
    (doubleDown id gDouble).1.phase = Phase.SHOWDOWN ∧
    (doubleDown id gDouble).1.phase ≠ Phase.DEALER_TURN := by
  refine ⟨rfl, by decide, ?_, ?_, ?_⟩ <;> decide

/-- Claim C5 as amended: `doubleDown` in state PlayerTurn fails with
`IllegalAction` unless the player hand has exactly 2 cards and the balance
covers the bet; on success it doubles the bet, deducts the additional stake
immediately, deals exactly one card, and moves to DealerTurn when that card
does not bust the hand — when it busts, the round moves directly to Showdown
with the bust recorded (the dealer never draws). -/
theorem doubleDown_spec (shuffle : List Card → List Card) (g : GameState)
    (hphase : g.phase = Phase.PLAYER_TURN)
    (hd : 1 ≤ g.shoe.numDecks)
    (hs : ∀ l : List Card, (shuffle l).length = l.length) :
    (¬ (g.playerHand.length = 2 ∧ g.bet ≤ g.playerMoney) →
      doubleDown shuffle g = (g, some EngineError.IllegalAction)) ∧
    (g.playerHand.length = 2 → g.bet ≤ g.playerMoney →
      (doubleDown shuffle g).2 = none ∧
      ∃ c : Card,
        (doubleDown shuffle g).1.playerHand = g.playerHand ++ [c] ∧
        (doubleDown shuffle g).1.bet = g.bet * 2 ∧
        (doubleDown shuffle g).1.playerMoney = g.playerMoney - g.bet ∧
        (calculate_hand_value (g.playerHand ++ [c]) ≤ 21 →
          (doubleDown shuffle g).1.phase = Phase.DEALER_TURN) ∧
        (21 < calculate_hand_value (g.playerHand ++ [c]) →
          (doubleDown shuffle g).1.phase = Phase.SHOWDOWN ∧
          (doubleDown shuffle g).1.playerBusted = true)) := by
  constructor
  · intro hno
    have hcond : ¬ (g.phase = Phase.PLAYER_TURN ∧ g.playerHand.length = 2 ∧
        g.bet ≤ g.playerMoney) := by
      intro hc
      exact hno ⟨hc.2.1, hc.2.2⟩
    unfold doubleDown
    rw [if_neg hcond]
  · intro h2 hb
    have hcond : g.phase = Phase.PLAYER_TURN ∧ g.playerHand.length = 2 ∧
        g.bet ≤ g.playerMoney := ⟨hphase, h2, hb⟩
    obtain ⟨c, s2, hds, _⟩ := dealStep_succeeds g.shoe shuffle hd hs
    have hkey : doubleDown shuffle g =
        (if 21 < calculate_hand_value (g.playerHand ++ [c]) then
          ({ g with
              playerMoney := g.playerMoney - g.bet
              bet := g.bet * 2
              playerHand := g.playerHand ++ [c]
              shoe := s2
              playerBusted := true
              phase := Phase.SHOWDOWN }, none)
        else
          ({ g with
              playerMoney := g.playerMoney - g.bet
              bet := g.bet * 2
              playerHand := g.playerHand ++ [c]
              shoe := s2
              phase := Phase.DEALER_TURN }, none)) := by
      unfold doubleDown
      rw [if_pos hcond, hds]
      simp [addCard]
    by_cases hbust : 21 < calculate_hand_value (g.playerHand ++ [c])
    · rw [hkey, if_pos hbust]
      refine ⟨rfl, c, rfl, rfl, rfl, ?_, fun _ => ⟨rfl, rfl⟩⟩
      intro hle
      omega
    · rw [hkey, if_neg hbust]
      refine ⟨rfl, c, rfl, rfl, rfl, fun _ => rfl, ?_⟩
      intro hgt
      exact absurd hgt hbust

/-- Witness for the amended C5: Scenario 5 — doubling down on {6♦, 5♠} with
bet 10 and balance 100, drawing the 4♣. -/
theorem doubleDown_spec_witness :
    (¬ (gScenario5.playerHand.length = 2 ∧ gScenario5.bet ≤ gScenario5.playerMoney) →
      doubleDown id gScenario5 = (gScenario5, some EngineError.IllegalAction)) ∧
    (gScenario5.playerHand.length = 2 → gScenario5.bet ≤ gScenario5.playerMoney →
      (doubleDown id gScenario5).2 = none ∧
      ∃ c : Card,
        (doubleDown id gScenario5).1.playerHand = gScenario5.playerHand ++ [c] ∧
        (doubleDown id gScenario5).1.bet = gScenario5.bet * 2 ∧
        (doubleDown id gScenario5).1.playerMoney =
          gScenario5.playerMoney - gScenario5.bet ∧
        (calculate_hand_value (gScenario5.playerHand ++ [c]) ≤ 21 →
          (doubleDown id gScenario5).1.phase = Phase.DEALER_TURN) ∧
        (21 < calculate_hand_value (gScenario5.playerHand ++ [c]) →
          (doubleDown id gScenario5).1.phase = Phase.SHOWDOWN ∧
          (doubleDown id gScenario5).1.playerBusted = true)) :=
  doubleDown_spec id gScenario5 rfl (by decide) (fun l => rfl)

/-- Claim C6: the dealer policy hits exactly below 17 (standing on every 17,
soft ones included), and the dealer-turn loop draws one card at a time until
the policy says stop, so the dealer's final hand value is at least 17; a hand
the policy already rejects is left untouched. -/
theorem dealer_policy_spec (hand : List Card) (supply : ℕ → Card) (k : ℕ) :
    (shouldHit hand = true ↔ calculate_hand_value hand < 17) ∧
    17 ≤ calculate_hand_value (dealerPlay supply hand k) ∧
    (shouldHit hand = false → dealerPlay supply hand k = hand) := by
  refine ⟨by simp [shouldHit], ?_, ?_⟩
  · exact dealerPlay_value_ge supply 17 hand k (by omega)
  · intro hsf
    have hstop : ¬ calculate_hand_value hand < 17 := by
      simpa [shouldHit] using hsf
    rw [dealerPlay_eq, if_neg hstop]

/-- Counterexample for C7: with the deck [2♠, 3♥, 4♦, 5♣] the current
variant's betting handler pops 5♣, 4♦ to the player and 3♥, 2♠ to the
dealer, so the player holds the 1st and 2nd cards dealt, not the 1st and 3rd
as the claim states. -/
theorem deal_order_counterexample :
    popCard deck4 = (some (Suit.Clubs, Rank.r5),
      [(Suit.Spades, Rank.r2), (Suit.Hearts, Rank.r3), (Suit.Diamonds, Rank.r4)]) ∧
    (dealOpeningHandsMain deck4).1 =
      [(Suit.Clubs, Rank.r5), (Suit.Diamonds, Rank.r4)] ∧
    (dealOpeningHandsMain deck4).2.1 =
      [(Suit.Hearts, Rank.r3), (Suit.Spades, Rank.r2)] ∧
    (dealOpeningHandsMain deck4).1 ≠
      [(Suit.Clubs, Rank.r5), (Suit.Hearts, Rank.r3)] := by
  refine ⟨?_, ?_, ?_, ?_⟩ <;> decide

/-- Claim C7 as amended: in the `Old/v1.1` variant the opening deal
alternates player/dealer/player/dealer, so the player holds the 1st and 3rd
cards dealt and the dealer the 2nd and 4th; in the current variant the player
instead receives the first two cards dealt and the dealer the next two. -/
theorem deal_order_amended (s : Shoe) (shuffle : List Card → List Card)
    (hd : 1 ≤ s.numDecks)
    (hs : ∀ l : List Card, (shuffle l).length = l.length) :
    (∃ c1 s1 c2 s2 c3 s3 c4 s4,
      dealStep shuffle s = (some c1, s1) ∧
      dealStep shuffle s1 = (some c2, s2) ∧
      dealStep shuffle s2 = (some c3, s3) ∧
      dealStep shuffle s3 = (some c4, s4) ∧
      dealOpeningHands shuffle s = ([c1, c3], [c2, c4], s4)) ∧
    (∀ (d : List Card) (c1 c2 c3 c4 : Card) (d1 d2 d3 d4 : List Card),
      popCard d = (some c1, d1) → popCard d1 = (some c2, d2) →
      popCard d2 = (some c3, d3) → popCard d3 = (some c4, d4) →
      dealOpeningHandsMain d = ([c1, c2], [c3, c4], d4)) := by
  constructor
  · obtain ⟨c1, s1, h1, hn1⟩ := dealStep_succeeds s shuffle hd hs
    obtain ⟨c2, s2, h2, hn2⟩ := dealStep_succeeds s1 shuffle (by rw [hn1]; exact hd) hs
    obtain ⟨c3, s3, h3, hn3⟩ :=
      dealStep_succeeds s2 shuffle (by rw [hn2, hn1]; exact hd) hs
    obtain ⟨c4, s4, h4, hn4⟩ :=
      dealStep_succeeds s3 shuffle (by rw [hn3, hn2, hn1]; exact hd) hs
    refine ⟨c1, s1, c2, s2, c3, s3, c4, s4, h1, h2, h3, h4, ?_⟩
    simp [dealOpeningHands, h1, h2, h3, h4, addCard]
  · intro d c1 c2 c3 c4 d1 d2 d3 d4 h1 h2 h3 h4
    simp [dealOpeningHandsMain, h1, h2, h3, h4, addCard]

/-- Witness for the amended C7: an empty single-deck shoe (which reshuffles)
for the alternating variant, and the concrete four-card deck for the current
variant. -/
theorem deal_order_amended_witness :
    (∃ c1 s1 c2 s2 c3 s3 c4 s4,
      dealStep id (Shoe.mk 1 []) = (some c1, s1) ∧
      dealStep id s1 = (some c2, s2) ∧
      dealStep id s2 = (some c3, s3) ∧
      dealStep id s3 = (some c4, s4) ∧
      dealOpeningHands id (Shoe.mk 1 []) = ([c1, c3], [c2, c4], s4)) ∧
    dealOpeningHandsMain deck4 =
      ([(Suit.Clubs, Rank.r5), (Suit.Diamonds, Rank.r4)],
       [(Suit.Hearts, Rank.r3), (Suit.Spades, Rank.r2)],
       ([] : List Card)) :=
  ⟨(deal_order_amended ⟨1, []⟩ id (by decide) (fun l => rfl)).1,
   (deal_order_amended ⟨1, []⟩ id (by decide) (fun l => rfl)).2 deck4
     (Suit.Clubs, Rank.r5) (Suit.Diamonds, Rank.r4)
     (Suit.Hearts, Rank.r3) (Suit.Spades, Rank.r2)
     [(Suit.Spades, Rank.r2), (Suit.Hearts, Rank.r3), (Suit.Diamonds, Rank.r4)]
     [(Suit.Spades, Rank.r2), (Suit.Hearts, Rank.r3)]
     [(Suit.Spades, Rank.r2)] []
     (by decide) (by decide) (by decide) (by decide)⟩

/-- Counterexample for C8: the dealer loop does draw on {A♠, 5♥} (a soft 16),
yet drawing the 6♣ lowers the hand's value from 16 to 12 — a drawn card does
not strictly increase the hand's value. -/
theorem value_not_monotone_counterexample :
    shouldHit [(Suit.Spades, Rank.A), (Suit.Hearts, Rank.r5)] = true ∧
    calculate_hand_value [(Suit.Spades, Rank.A), (Suit.Hearts, Rank.r5)] = 16 ∧
    calculate_hand_value
      [(Suit.Spades, Rank.A), (Suit.Hearts, Rank.r5), (Suit.Clubs, Rank.r6)] = 12 := by
  refine ⟨?_, ?_, ?_⟩ <;> decide

/-- Claim C8 as amended: every engine operation terminates; in particular the
dealer auto-play loop terminates for every starting hand and card supply
because each draw adds one card and a hand's value is at least its card
count, so the guard `value < 17` fails within at most `17 − |hand|` draws
(the final hand never exceeds `max |hand| 17` cards) — though a single drawn
card need not strictly increase the value. -/
theorem dealerPlay_terminates (hand : List Card) (supply : ℕ → Card) (k : ℕ) :
    hand.length ≤ calculate_hand_value hand ∧
    (dealerPlay supply hand k).length ≤ max hand.length 17 :=
  ⟨length_le_value hand, dealerPlay_length_le supply 17 hand k (by omega)⟩

/-- Claim C9: every branch of round resolution moves equal and opposite
amounts between the two balances (or none on a push), so settling a round
conserves the total `playerBalance + dealerBalance`, in both variants. -/
theorem resolve_conserves_money :
    ∀ (pB dB pJ dJ : Bool) (pv dv : ℕ) (bet : ℚ),
      (resolve pB dB pJ dJ pv dv bet).2.1 + (resolve pB dB pJ dJ pv dv bet).2.2 = 0 ∧
      (resolveMain pv dv bet).1 + (resolveMain pv dv bet).2 = 0 := by
  intro pB dB pJ dJ pv dv bet
  constructor
  · cases pB <;> cases dB <;> cases pJ <;> cases dJ <;>
      unfold resolve <;> split_ifs <;> simp
  · unfold resolveMain
    split_ifs <;> simp

/-- Claim C10: `calculate_hand_value` depends only on the multiset of cards:
permuting a hand never changes its value. -/
theorem value_perm_invariant (h1 h2 : List Card) (hp : h1.Perm h2) :
    calculate_hand_value h1 = calculate_hand_value h2 := by
  unfold calculate_hand_value rawSum aceCount
  rw [List.Perm.sum_eq (hp.map _), hp.countP_eq]

/-- Witness for C10: swapping the two cards of {A♠, 9♣} leaves the value
unchanged. -/
theorem value_perm_invariant_witness :
    calculate_hand_value [(Suit.Spades, Rank.A), (Suit.Clubs, Rank.r9)] =
      calculate_hand_value [(Suit.Clubs, Rank.r9), (Suit.Spades, Rank.A)] :=
  value_perm_invariant _ _ (List.Perm.swap _ _ _)

end BJC
